import Mathlib

/-!
# HapticAudioController — verification of the spec against `src/script.py`

Shallow embedding of the bass-to-serial bridge. Python floats are modelled
as exact rationals (`ℚ`); Python's unbounded `int` as `ℤ`/`ℕ`. The spectral
analyzer (the NumPy FFT pipeline) is embedded over `ℝ`/`ℂ`. Statements about
the processing loop's error behaviour use an explicit per-frame environment
(overflow indication, write success) and an exception-valued loop model.
-/

set_option allowUnsafeReducibility true in
attribute [semireducible] Rat.mul Rat.add Rat.sub Rat.div Rat.inv Rat.neg

namespace HapticAudio

/-- Constant CHUNK = 1024, samples per frame (script.py line 61). -/
def CHUNK : ℕ := 1024

/-- Constant RATE = 44100, sampling rate in Hz (line 62). -/
def RATE : ℕ := 44100

/-- Constant BASS_LOW = 30 Hz (line 63). -/
def BASS_LOW : ℚ := 30

/-- Constant BASS_HIGH = 200 Hz (line 64). -/
def BASS_HIGH : ℚ := 200

/-- Constant timerGainMaxHigh = 60 (line 66). -/
def timerGainMaxHigh : ℕ := 60

/-- Constant timerGainMaxMid = 120 (line 67). -/
def timerGainMaxMid : ℕ := 120

/-- Constant timerGainMaxLow = 90 (line 68). -/
def timerGainMaxLow : ℕ := 90

/-- NumPy clip: np.clip(x, lo, hi) = min(hi, max(x, lo)). -/
def npClip (x lo hi : ℚ) : ℚ := min (max x lo) hi

/-- Python int(·) applied to a float: truncation toward zero. -/
def pyInt (q : ℚ) : ℤ := if q < 0 then -⌊-q⌋ else ⌊q⌋

/-- The raw candidate, val = int(np.clip(bass_energy * gain, 0, 255))
(lines 115 and 140; the same expression in both modes). -/
def codeVal (e g : ℚ) : ℤ := pyInt (npClip (e * g) 0 255)

/-- The mutable controller state threaded through the processing loop:
gain (line 69, mutated by the adaptive updates), gainTimer (line 65) and
the loop-carried prevVal (initialized line 98, assigned line 116). -/
structure GainState where
  gain : ℚ
  gainTimer : ℕ
  prevVal : ℤ
  deriving DecidableEq, Repr

/-- One adaptive-mode update (lines 115–138), transcribed statement by
statement.  Note that the source assigns prevVal = val (line 116) *before*
the two crossing checks (lines 117–120), so those checks compare val with
itself. -/
def adaptiveStep (e : ℚ) (s : GainState) : GainState :=
  let val : ℤ := codeVal e s.gain
  let prevVal : ℤ := val
  let gainTimer : ℕ :=
    if prevVal < 205 ∧ 205 < val then 0
    else if val < 195 ∧ 195 < prevVal then 0
    else s.gainTimer
  if 230 < val then
    let t := gainTimer + 1
    { gain :=
      if timerGainMaxHigh < t then
        s.gain - (8 / 10000) * (((t * 2 : ℕ) : ℚ) / (timerGainMaxHigh : ℚ))
      else s.gain,
      gainTimer := t, prevVal := prevVal }
  else if 205 < val ∧ val < 231 then
    let t := gainTimer + 1
    { gain :=
      if timerGainMaxHigh < t then
        s.gain - (4 / 10000) * (((t * 2 : ℕ) : ℚ) / (timerGainMaxHigh : ℚ))
      else s.gain,
      gainTimer := t, prevVal := prevVal }
  else if 80 < val ∧ val < 195 then
    let t := gainTimer + 1
    { gain := if timerGainMaxMid < t then s.gain + 5 / 10000 else s.gain,
      gainTimer := t, prevVal := prevVal }
  else if 50 < e ∧ val < 81 then
    let t := gainTimer + 1
    { gain := if timerGainMaxLow < t then s.gain + 9 / 1000 else s.gain,
      gainTimer := t, prevVal := prevVal }
  else
    { gain := s.gain, gainTimer := 0, prevVal := prevVal }

/-- One pass of the if adaptiveGain: ... else: ... block (lines 114–140):
the emitted value together with the state after the frame.  In non-adaptive
mode (line 140) the state is returned untouched. -/
def controllerStep (adaptive : Bool) (e : ℚ) (s : GainState) : ℤ × GainState :=
  if adaptive then (codeVal e s.gain, adaptiveStep e s)
  else (codeVal e s.gain, s)

/-- Iterating n consecutive adaptive frames at constant bass energy e. -/
def runConst (e : ℚ) : ℕ → GainState → GainState
  | 0, s => s
  | n + 1, s => adaptiveStep e (runConst e n s)

/-- The state the script starts in: gain = 0.006 (line 69), gainTimer = 0
(line 65), prevVal = 0 (line 98). -/
def initState : GainState := ⟨6 / 1000, 0, 0⟩

/-- Expected gain trajectory under 64 frames of constant energy 1000000:
the timer grows by one per frame, and from the 61st frame on the high-high
branch subtracts t/37500 (= 0.0008·2t/60) at post-increment timer t. -/
def gainSeq (k : ℕ) : ℚ :=
  if k ≤ 60 then 6 / 1000
  else 6 / 1000 - (((k * (k + 1) / 2 - 1830 : ℕ)) : ℚ) / 37500

/-- Expected whole state after k frames of constant energy 1000000 from
the initial state: val = 255 on every frame, so prevVal = 255 from the
first frame on and the timer counts frames. -/
def expectedState (k : ℕ) : GainState :=
  ⟨gainSeq k, k, if k = 0 then 0 else 255⟩

/-- Per-frame environment for the driver loop: whether the capture read
reported an overflow, whether the serial write succeeds, and the frame's
bass energy (abstracting the analyzer stage). -/
structure FrameEnv where
  overflow : Bool
  writeOk : Bool
  energy : ℚ
  deriving DecidableEq, Repr

/-- The Python exceptions relevant to the processing loop: the interrupt
caught at line 146, and a serial-write error (pyserial SerialException),
for which the source has no handler. -/
inductive PyExc where
  | keyboardInterrupt
  | serialException
  deriving DecidableEq, Repr

/-- The while-True loop (lines 99–143) over a finite schedule of frames:
stream.read is called with exception_on_overflow=False (line 101), so an
overflow never raises and the iteration proceeds with the frame as read;
the controller then updates the state, and ser.write (line 143) either
succeeds or raises.  The only enclosing handler (line 146) catches
KeyboardInterrupt, not serial errors, so a write failure propagates and
ends the loop.  Returns (frames fully processed, final state, the
escaping exception if any). -/
def runLoop (adaptive : Bool) : List FrameEnv → GainState → ℕ × GainState × Option PyExc
  | [], s => (0, s, none)
  | env :: rest, s =>
    let s' := (controllerStep adaptive env.energy s).2
    if env.writeOk then
      let r := runLoop adaptive rest s'
      (r.1 + 1, r.2)
    else
      (0, s', some PyExc.serialException)

/-- NumPy Hann window: np.hanning(M)[n] = 0.5 − 0.5·cos(2πn/(M−1)). -/
noncomputable def hanning (M n : ℕ) : ℝ :=
  1 / 2 - 1 / 2 * Real.cos (2 * Real.pi * n / ((M : ℝ) - 1))

/-- NumPy real-input DFT: np.fft.rfft(x)[k] = Σ_{n<N} x[n]·exp(−2πi·k·n/N). -/
noncomputable def rfft (N : ℕ) (x : ℕ → ℝ) (k : ℕ) : ℂ :=
  ∑ n ∈ Finset.range N,
    (x n : ℂ) * Complex.exp (-(2 * (Real.pi : ℂ) * Complex.I * k * n) / N)

/-- NumPy bin frequencies: np.fft.rfftfreq(CHUNK, 1.0/RATE)[k] = k/(d·n)
with d = 1/RATE and n = CHUNK (line 106).  Exact rational value. -/
def rfreq (k : ℕ) : ℚ := (k : ℚ) / ((1 / (RATE : ℚ)) * (CHUNK : ℚ))

/-- The mask of line 110: bins of the first CHUNK/2+1 whose frequency
satisfies freqs >= BASS_LOW and freqs <= BASS_HIGH. -/
def bassBins : Finset ℕ :=
  (Finset.range (CHUNK / 2 + 1)).filter fun k =>
    BASS_LOW ≤ rfreq k ∧ rfreq k ≤ BASS_HIGH

/-- The windowed frame of line 105: samples * np.hanning(len(samples)). -/
noncomputable def windowed (x : ℕ → ℝ) (n : ℕ) : ℝ := x n * hanning CHUNK n

/-- The analyzer output (lines 105–111): magnitude[mask].mean(), the
arithmetic mean of the magnitudes of the masked bins of the windowed
real FFT.  A pure function of the frame: it reads and writes no state. -/
noncomputable def bassEnergy (x : ℕ → ℝ) : ℝ :=
  (∑ k ∈ bassBins, Complex.abs (rfft CHUNK (windowed x) k)) / (bassBins.card : ℝ)

/-- Bin selection in the words of the spec: those bins i of the real FFT
whose frequency i·R/N lies in the closed interval [30, 200]. -/
noncomputable def specBins : Finset ℕ :=
  (Finset.range (CHUNK / 2 + 1)).filter fun k =>
    ((k : ℝ) * (RATE : ℝ) / (CHUNK : ℝ)) ∈ Set.Icc (30 : ℝ) 200

/-- The analyzer contract in the words of the spec: the arithmetic mean of
the magnitudes of the Hann-windowed real-FFT bins selected by specBins. -/
noncomputable def specBassEnergy (x : ℕ → ℝ) : ℝ :=
  (∑ k ∈ specBins, Complex.abs (rfft CHUNK (windowed x) k)) / (specBins.card : ℝ)

/-- A frame of all-zero samples. -/
def zeroFrame : ℕ → ℝ := fun _ => 0

/-- The candidate value in the words of the spec: clamp(round(energy·gain),
0, 255), rounding to the nearest integer before clamping. -/
def specRoundVal (e g : ℚ) : ℤ := min (max (round (e * g)) 0) 255

end HapticAudio
namespace HapticAudio

lemma expectedStep : ∀ k < 64, adaptiveStep 1000000 (expectedState k) = expectedState (k + 1) := by
  decide

lemma expectedTrace : ∀ k ≤ 64, runConst 1000000 k initState = expectedState k := by
  intro k hk
  induction k with
  | zero => decide
  | succ n ih =>
    rw [runConst, ih (Nat.le_of_succ_le hk)]
    exact expectedStep n (Nat.lt_of_succ_le hk)

/-- Claim C2 (code bug): the unclamped high-zone decrement drives gain
negative.  After 64 consecutive frames of constant bass energy 1000000
from the script's initial state (every frame lands in the high-high zone,
val = 255), the gain is -1/1500 < 0. -/
theorem gain_negative_after_64_loud_frames :
    (runConst 1000000 64 initState).gain = -1 / 1500 ∧
    (runConst 1000000 64 initState).gain < 0 := by
  rw [expectedTrace 64 (by decide)]
  refine ⟨by decide, by decide⟩

/-- Claim C1 (code bug): an upward crossing of 205 does not reset the
timer.  With previous output prevVal = 200 (< 205), timer 50 and gain
0.006, a frame of energy 40000 yields candidate val = 240 (> 205): the
spec says the timer resets to 0 on this frame, but because line 116
assigns prevVal = val before the checks of lines 117–120, the code
leaves the reset dead and the high-high branch counts the timer up
to 51. -/
theorem upward_crossing_reset_is_dead :
    (⟨6 / 1000, 50, 200⟩ : GainState).prevVal < 205 ∧
    205 < codeVal 40000 (6 / 1000) ∧
    codeVal 40000 (6 / 1000) = 240 ∧
    (adaptiveStep 40000 ⟨6 / 1000, 50, 200⟩).gainTimer = 51 := by
  decide

/-- Claim C5 counterexample: at energy 9 and gain 1/10 (non-negative
energy, positive gain) the code's candidate is int(0.9) = 0, while
clamp(round(0.9), 0, 255) = 1: the product is truncated, not rounded. -/
theorem codeVal_not_rounded_cex :
    (0 : ℚ) ≤ 9 ∧ (0 : ℚ) < 1 / 10 ∧
    codeVal 9 (1 / 10) = 0 ∧ specRoundVal 9 (1 / 10) = 1 ∧
    codeVal 9 (1 / 10) ≠ specRoundVal 9 (1 / 10) := by
  decide

/-- Claim C9: in non-adaptive (fixed-gain) mode a loop iteration returns
the GainState untouched; in particular gain and gainTimer are unchanged. -/
theorem nonadaptive_state_unchanged (e : ℚ) (s : GainState) :
    (controllerStep false e s).2 = s := rfl

set_option maxRecDepth 10000 in
/-- Claim C10: with CHUNK = 1024, RATE = 44100 and band [30, 200] Hz the
mask of line 110 selects exactly the four bins 1–4, so the selected set is
non-empty and the mean of line 111 is over a non-empty set. -/
theorem bassBins_eq_and_nonempty :
    bassBins = {1, 2, 3, 4} ∧ bassBins.card = 4 ∧ bassBins.Nonempty := by
  refine ⟨by decide, by decide, ?_⟩
  exact ⟨1, by decide⟩

/-- Claim C8 counterexample: a schedule of two frames whose first serial
write fails.  The loop ends at the failed write with the serialException
escaping (no handler catches it) and the second frame is never processed:
a transport write failure does terminate the loop. -/
theorem write_failure_terminates_loop_cex :
    (runLoop true [⟨false, false, 100⟩, ⟨false, true, 100⟩] initState).1 = 0 ∧
    (runLoop true [⟨false, false, 100⟩, ⟨false, true, 100⟩] initState).2.2 =
      some PyExc.serialException := by
  decide

end HapticAudio
namespace HapticAudio

lemma codeVal_bounds (e g : ℚ) : 0 ≤ codeVal e g ∧ codeVal e g ≤ 255 := by
  unfold codeVal pyInt npClip
  have h0 : (0 : ℚ) ≤ min (max (e * g) 0) 255 :=
    le_min (le_max_right _ _) (by norm_num)
  have h255 : min (max (e * g) 0) 255 ≤ 255 := min_le_right _ _
  rw [if_neg (not_lt.2 h0)]
  constructor
  · exact Int.le_floor.2 (by exact_mod_cast h0)
  · have h := Int.floor_le_floor h255
    have h2 : ⌊(255 : ℚ)⌋ = 255 := by norm_num
    omega

/-- Claim C4: for every non-negative energy and positive current gain, in
both adaptive and non-adaptive mode the emitted candidate value lies in
[0, 255] — np.clip bounds the product before the int conversion, however
large energy · gain is. -/
theorem output_byte_in_range (adaptive : Bool) (e : ℚ) (s : GainState)
    (he : 0 ≤ e) (hg : 0 < s.gain) :
    0 ≤ (controllerStep adaptive e s).1 ∧ (controllerStep adaptive e s).1 ≤ 255 := by
  have h := codeVal_bounds e s.gain
  cases adaptive <;> simpa [controllerStep] using h

/-- Witness for output_byte_in_range: adaptive mode, energy 1000000 and
the initial state (gain 0.006 > 0). -/
theorem output_byte_in_range_witness :
    0 ≤ (controllerStep true 1000000 initState).1 ∧
    (controllerStep true 1000000 initState).1 ≤ 255 :=
  output_byte_in_range true 1000000 initState (by norm_num) (by decide)

/-- Claim C5 as amended: the raw candidate equals
clamp(truncate(energy·gain), 0, 255) — for a non-negative product the
Python int() conversion floors (truncates toward zero), it does not round
to the nearest integer. -/
theorem codeVal_eq_clamp_floor (e g : ℚ) (he : 0 ≤ e) (hg : 0 < g) :
    codeVal e g = min (max ⌊e * g⌋ 0) 255 := by
  have hx : (0 : ℚ) ≤ e * g := mul_nonneg he hg.le
  unfold codeVal npClip pyInt
  rw [max_eq_left hx]
  have h0 : (0 : ℚ) ≤ min (e * g) 255 := le_min hx (by norm_num)
  rw [if_neg (not_lt.2 h0)]
  have hfmin : ⌊min (e * g) (255 : ℚ)⌋ = min ⌊e * g⌋ ⌊(255 : ℚ)⌋ :=
    (Int.floor_mono (α := ℚ)).map_min
  have hfl : (0 : ℤ) ≤ ⌊e * g⌋ := Int.le_floor.2 (by exact_mod_cast hx)
  have h2 : ⌊(255 : ℚ)⌋ = 255 := by norm_num
  rw [hfmin, h2, max_eq_left hfl]

/-- Witness for codeVal_eq_clamp_floor: energy 100, gain 3/2. -/
theorem codeVal_eq_clamp_floor_witness :
    codeVal 100 (3 / 2) = min (max ⌊(100 : ℚ) * (3 / 2)⌋ 0) 255 :=
  codeVal_eq_clamp_floor 100 (3 / 2) (by norm_num) (by norm_num)

end HapticAudio
namespace HapticAudio

lemma adaptiveStep_eq (e : ℚ) (s : GainState) :
    adaptiveStep e s =
      if 230 < codeVal e s.gain then
        ⟨if 60 < s.gainTimer + 1 then
            s.gain - (8 / 10000) * ((((s.gainTimer + 1) * 2 : ℕ) : ℚ) / 60)
          else s.gain,
          s.gainTimer + 1, codeVal e s.gain⟩
      else if 205 < codeVal e s.gain ∧ codeVal e s.gain < 231 then
        ⟨if 60 < s.gainTimer + 1 then
            s.gain - (4 / 10000) * ((((s.gainTimer + 1) * 2 : ℕ) : ℚ) / 60)
          else s.gain,
          s.gainTimer + 1, codeVal e s.gain⟩
      else if 80 < codeVal e s.gain ∧ codeVal e s.gain < 195 then
        ⟨if 120 < s.gainTimer + 1 then s.gain + 5 / 10000 else s.gain,
          s.gainTimer + 1, codeVal e s.gain⟩
      else if 50 < e ∧ codeVal e s.gain < 81 then
        ⟨if 90 < s.gainTimer + 1 then s.gain + 9 / 1000 else s.gain,
          s.gainTimer + 1, codeVal e s.gain⟩
      else ⟨s.gain, 0, codeVal e s.gain⟩ := by
  have hd1 : ¬(codeVal e s.gain < 205 ∧ 205 < codeVal e s.gain) := by omega
  have hd2 : ¬(codeVal e s.gain < 195 ∧ 195 < codeVal e s.gain) := by omega
  unfold adaptiveStep
  simp only [hd1, hd2, if_false, timerGainMaxHigh, timerGainMaxMid, timerGainMaxLow]
  norm_num

end HapticAudio
namespace HapticAudio

/-- Claim C3: zone classification of the adaptive branch.  Exactly one of
the five mutually exclusive cases of the candidate value (and, for the low
zone, of the raw energy) applies per frame: high-high (> 230, decrement
0.0008·(t·2/60) once the incremented timer t exceeds 60), high (205–230,
decrement 0.0004·(t·2/60)), mid (81–194, fixed increment 0.0005 once t
exceeds 120), low-but-audible (energy > 50 and val ≤ 80, fixed increment
0.009 once t exceeds 90), otherwise timer reset with gain unchanged. -/
theorem adaptiveStep_zone_cases (e : ℚ) (s : GainState) :
    (230 < codeVal e s.gain →
      (adaptiveStep e s).gainTimer = s.gainTimer + 1 ∧
      (adaptiveStep e s).gain =
        if 60 < s.gainTimer + 1 then
          s.gain - (8 / 10000) * (((s.gainTimer + 1 : ℕ) : ℚ) * 2 / 60)
        else s.gain) ∧
    (205 < codeVal e s.gain ∧ codeVal e s.gain ≤ 230 →
      (adaptiveStep e s).gainTimer = s.gainTimer + 1 ∧
      (adaptiveStep e s).gain =
        if 60 < s.gainTimer + 1 then
          s.gain - (4 / 10000) * (((s.gainTimer + 1 : ℕ) : ℚ) * 2 / 60)
        else s.gain) ∧
    (80 < codeVal e s.gain ∧ codeVal e s.gain < 195 →
      (adaptiveStep e s).gainTimer = s.gainTimer + 1 ∧
      (adaptiveStep e s).gain =
        if 120 < s.gainTimer + 1 then s.gain + 5 / 10000 else s.gain) ∧
    (50 < e ∧ codeVal e s.gain ≤ 80 →
      (adaptiveStep e s).gainTimer = s.gainTimer + 1 ∧
      (adaptiveStep e s).gain =
        if 90 < s.gainTimer + 1 then s.gain + 9 / 1000 else s.gain) ∧
    (¬230 < codeVal e s.gain ∧ ¬(205 < codeVal e s.gain ∧ codeVal e s.gain ≤ 230) ∧
      ¬(80 < codeVal e s.gain ∧ codeVal e s.gain < 195) ∧
      ¬(50 < e ∧ codeVal e s.gain ≤ 80) →
      (adaptiveStep e s).gainTimer = 0 ∧ (adaptiveStep e s).gain = s.gain) := by
  rw [adaptiveStep_eq]
  have hcast : ((((s.gainTimer + 1) * 2 : ℕ)) : ℚ) = ((s.gainTimer + 1 : ℕ) : ℚ) * 2 := by
    push_cast; ring
  refine ⟨?_, ?_, ?_, ?_, ?_⟩
  · intro h
    rw [if_pos h]
    exact ⟨rfl, by rw [hcast]⟩
  · intro h
    rw [if_neg (by omega), if_pos (by omega)]
    exact ⟨rfl, by rw [hcast]⟩
  · intro h
    rw [if_neg (by omega), if_neg (by omega), if_pos h]
    exact ⟨rfl, rfl⟩
  · intro h
    rw [if_neg (by omega), if_neg (by omega), if_neg (by omega),
      if_pos (by exact ⟨h.1, by omega⟩)]
    exact ⟨rfl, rfl⟩
  · intro h
    rw [if_neg (by omega), if_neg (by omega), if_neg (by omega),
      if_neg (by rcases h with ⟨_, _, _, h4⟩; exact fun hc => h4 ⟨hc.1, by omega⟩)]
    exact ⟨rfl, rfl⟩

/-- Witness for adaptiveStep_zone_cases: energy 1000000 at the initial
state lands in the high-high zone (val = 255). -/
theorem adaptiveStep_zone_cases_witness :
    (adaptiveStep 1000000 initState).gainTimer = initState.gainTimer + 1 ∧
    (adaptiveStep 1000000 initState).gain =
      if 60 < initState.gainTimer + 1 then
        initState.gain - (8 / 10000) * (((initState.gainTimer + 1 : ℕ) : ℚ) * 2 / 60)
      else initState.gain :=
  (adaptiveStep_zone_cases 1000000 initState).1 (by decide)

end HapticAudio
namespace HapticAudio

lemma runLoop_ignores_overflow (adaptive : Bool) (envs : List FrameEnv) (s : GainState) :
    runLoop adaptive (envs.map fun env => ⟨false, env.writeOk, env.energy⟩) s =
      runLoop adaptive envs s := by
  induction envs generalizing s with
  | nil => rfl
  | cons env rest ih =>
    by_cases h : env.writeOk <;> simp [runLoop, h, ih]

lemma runLoop_all_writes_ok (adaptive : Bool) (envs : List FrameEnv) (s : GainState)
    (h : ∀ env ∈ envs, env.writeOk = true) :
    (runLoop adaptive envs s).2.2 = none ∧ (runLoop adaptive envs s).1 = envs.length := by
  induction envs generalizing s with
  | nil => exact ⟨rfl, rfl⟩
  | cons env rest ih =>
    have hw : env.writeOk = true := h env (List.mem_cons_self _ _)
    have hr := ih ((controllerStep adaptive env.energy s).2)
      (fun x hx => h x (List.mem_cons_of_mem _ hx))
    simp [runLoop, hw, hr.1, hr.2]

lemma runLoop_write_failure (adaptive : Bool) (envs : List FrameEnv) (s : GainState)
    (h : ∃ env ∈ envs, env.writeOk = false) :
    (runLoop adaptive envs s).2.2 = some PyExc.serialException := by
  induction envs generalizing s with
  | nil => rcases h with ⟨_, hmem, _⟩; cases hmem
  | cons env rest ih =>
    by_cases hw : env.writeOk
    · rcases h with ⟨x, hx, hxw⟩
      rcases List.mem_cons.1 hx with rfl | hx'
      · rw [hw] at hxw; cases hxw
      · simp [runLoop, hw, ih _ ⟨x, hx', hxw⟩]
    · simp [runLoop, hw]

/-- Claim C8 as amended (error propagation of the processing loop): a
capture overflow never terminates the loop and never alters its behaviour
(the read suppresses overflow exceptions), and if every serial write
succeeds the whole schedule is processed with no escaping exception; but
a serial write failure is not handled — the only handler catches
KeyboardInterrupt — so any schedule containing a failing write ends the
loop with the serial exception escaping. -/
theorem runLoop_error_policy (adaptive : Bool) (envs : List FrameEnv) (s : GainState) :
    (runLoop adaptive (envs.map fun env => ⟨false, env.writeOk, env.energy⟩) s =
      runLoop adaptive envs s) ∧
    ((∀ env ∈ envs, env.writeOk = true) →
      (runLoop adaptive envs s).2.2 = none ∧ (runLoop adaptive envs s).1 = envs.length) ∧
    ((∃ env ∈ envs, env.writeOk = false) →
      (runLoop adaptive envs s).2.2 = some PyExc.serialException) :=
  ⟨runLoop_ignores_overflow adaptive envs s,
    fun h => runLoop_all_writes_ok adaptive envs s h,
    fun h => runLoop_write_failure adaptive envs s h⟩

/-- Witness for runLoop_error_policy: a one-frame schedule with the write
succeeding (loop completes, no exception) and a one-frame schedule with
the write failing (serial exception escapes). -/
theorem runLoop_error_policy_witness :
    (runLoop true [⟨true, true, 100⟩] initState).2.2 = none ∧
    (runLoop true [⟨true, false, 100⟩] initState).2.2 = some PyExc.serialException :=
  ⟨((runLoop_error_policy true [⟨true, true, 100⟩] initState).2.1
      (by intro env henv; simp at henv; rw [henv])).1,
    (runLoop_error_policy true [⟨true, false, 100⟩] initState).2.2
      ⟨⟨true, false, 100⟩, by simp, rfl⟩⟩

end HapticAudio
namespace HapticAudio

lemma bassBins_eq_specBins : bassBins = specBins := by
  unfold bassBins specBins
  apply Finset.filter_congr
  intro k _
  rw [Set.mem_Icc]
  have hr : rfreq k = (k * 44100 : ℚ) / 1024 := by
    simp only [rfreq, RATE, CHUNK]
    norm_num
    rw [div_div_eq_mul_div]
    ring
  have hcast : ((k : ℝ) * (RATE : ℝ) / (CHUNK : ℝ)) = (((k * 44100 : ℚ) / 1024 : ℚ) : ℝ) := by
    simp only [RATE, CHUNK]
    push_cast
    ring
  rw [hr, hcast]
  simp only [BASS_LOW, BASS_HIGH]
  constructor
  · rintro ⟨h1, h2⟩
    exact ⟨by exact_mod_cast h1, by exact_mod_cast h2⟩
  · rintro ⟨h1, h2⟩
    exact ⟨by exact_mod_cast h1, by exact_mod_cast h2⟩

/-- Claim C6: the analyzer's energy equals the spec's description — the
arithmetic mean of the magnitudes of the real-input FFT of the
Hann-windowed frame over exactly those bins k with k·R/N in the closed
band [30, 200] Hz.  Both sides are pure functions of the frame alone. -/
theorem bassEnergy_eq_spec (x : ℕ → ℝ) : bassEnergy x = specBassEnergy x := by
  unfold bassEnergy specBassEnergy
  rw [bassBins_eq_specBins]

lemma codeVal_zero_energy (g : ℚ) : codeVal 0 g = 0 := by
  unfold codeVal npClip pyInt
  rw [zero_mul]
  norm_num

lemma adaptiveStep_silence (s : GainState) : adaptiveStep 0 s = ⟨s.gain, 0, 0⟩ := by
  rw [adaptiveStep_eq, codeVal_zero_energy]
  norm_num

lemma runConst_silence (n : ℕ) (s : GainState) : runConst 0 (n + 1) s = ⟨s.gain, 0, 0⟩ := by
  induction n with
  | zero => rw [runConst, runConst]; exact adaptiveStep_silence s
  | succ m ih => rw [runConst, ih]; exact adaptiveStep_silence _

lemma bassEnergy_zeroFrame : bassEnergy zeroFrame = 0 := by
  unfold bassEnergy rfft windowed zeroFrame
  simp

/-- Claim C7: under sustained all-zero frames in adaptive mode the
analyzer yields energy 0, so the candidate value is 0 on every frame
(whatever the current gain), the timer is reset to 0 by the otherwise
branch on every frame and stays 0, and the gain never changes. -/
theorem silence_idempotence (n : ℕ) (s : GainState) :
    bassEnergy zeroFrame = 0 ∧
    codeVal 0 (runConst 0 n s).gain = 0 ∧
    (runConst 0 (n + 1) s).gainTimer = 0 ∧
    (runConst 0 (n + 1) s).gain = s.gain := by
  refine ⟨bassEnergy_zeroFrame, codeVal_zero_energy _, ?_, ?_⟩ <;>
    rw [runConst_silence]

end HapticAudio
